import Mathlib

/-!
# Verification of the Student Repository program

A shallow embedding, in Lean 4, of the two-file Python program that loads
tab-delimited university records (majors, students, instructors, grades),
builds an in-memory model, and derives degree progress and GPA.

Modelling conventions used throughout:

* A Python `dict` is modelled as an insertion-ordered association list
  `List (String × α)`: `d[k] = v` (`aupdate`) replaces the value in place when
  the key is present and appends otherwise, exactly the CPython ordering
  contract.  `alookup` is membership/`d[k]` lookup.
* A Python `set` of strings is modelled as an insertion-ordered duplicate-free
  list (`sadd`).  CPython's set iteration order is unspecified (hash-based);
  the model commits to insertion order as one concrete realisation of an
  unspecified order.
* Python floats are modelled as exact rationals `ℚ`.  Every grade point in the
  program (multiples of 0.25) is exactly representable as a binary float, so
  sums are exact; `round(x, 2)` is modelled as decimal rounding half-to-even
  (`bankersRound`), Python's rounding mode.
* Raised exceptions are modelled with `Except PyError` / `Option PyError`;
  printed diagnostics are returned as structured values instead of strings.
* A file on disk is an `Option (List (List String))`: `none` when the path
  cannot be opened, otherwise the list of its physical lines, each already
  split on the delimiter by `csv.reader`.
-/

/-- The Python exceptions the program raises or catches.
`malformedLine` is the `ValueError` raised by `file_reader`
(`f'{path} - path has length of line: {len(line)} fields on line no:
{line_num} expected {fields}'`), carrying the interpolated values
structurally. -/
inductive PyError where
  | keyError (key : String)
  | valueError (msg : String)
  | malformedLine (path : String) (lineNo : Nat) (actual : Nat) (expected : Nat)
  | fileNotFound (msg : String)
  deriving DecidableEq, Repr

/-- Model of Python lookup: `alookup d k` is Python `d[k]` / `k in d` on the assoc-list model of a
dict: first (and, for dict-shaped lists, only) binding of `k`. -/
def alookup {α : Type} : List (String × α) → String → Option α
  | [], _ => none
  | (k0, v0) :: rest, k => if k0 = k then some v0 else alookup rest k

/-- Model of Python assignment: `aupdate d k v` is Python `d[k] = v`: replace in place when present,
append otherwise (insertion order preserved). -/
def aupdate {α : Type} : List (String × α) → String → α → List (String × α)
  | [], k, v => [(k, v)]
  | (k0, v0) :: rest, k, v =>
    if k0 = k then (k, v) :: rest else (k0, v0) :: aupdate rest k v

/-- Model of Python set insertion: `sadd s x` is Python `s.add(x)` on the insertion-ordered model of a set:
no-op when present, append otherwise. -/
def sadd (s : List String) (x : String) : List String :=
  if x ∈ s then s else s ++ [x]

@[simp] theorem alookup_nil {α : Type} (k : String) :
    alookup ([] : List (String × α)) k = none := rfl

@[simp] theorem alookup_cons {α : Type} (k0 k : String) (v0 : α)
    (rest : List (String × α)) :
    alookup ((k0, v0) :: rest) k = if k0 = k then some v0 else alookup rest k := rfl

theorem alookup_aupdate_self {α : Type} (d : List (String × α)) (k : String) (v : α) :
    alookup (aupdate d k v) k = some v := by
  induction d with
  | nil => simp [aupdate]
  | cons p rest ih =>
    obtain ⟨k0, v0⟩ := p
    by_cases h : k0 = k <;> simp [aupdate, h, ih]

theorem alookup_aupdate_ne {α : Type} (d : List (String × α)) (k k' : String) (v : α)
    (h : k' ≠ k) : alookup (aupdate d k' v) k = alookup d k := by
  induction d with
  | nil => simp [aupdate, alookup, h]
  | cons p rest ih =>
    obtain ⟨k0, v0⟩ := p
    by_cases h0 : k0 = k'
    · subst h0
      simp [aupdate, alookup, h]
    · simp [aupdate, h0, alookup, ih]

theorem alookup_append {α : Type} (d e : List (String × α)) (k : String) :
    alookup (d ++ e) k = ((alookup d k).orElse fun _ => alookup e k) := by
  induction d with
  | nil => simp [alookup, Option.orElse]
  | cons p rest ih =>
    obtain ⟨k0, v0⟩ := p
    by_cases h : k0 = k <;> simp [alookup, h, ih, Option.orElse]

/-!
## `file_reader` (source: `file_reader`, `Student_Repository_Malav_Shah_11.py`
lines 200–223)

The generator reads and splits lines; for each line (1-based numbering) it
first validates the field count, raising the malformed-line `ValueError` on
the first mismatch, then either yields the tuple or, exactly once when the
header flag is set, discards the line and clears the flag.

The embedding returns both the records yielded before any error (the consumer
sees exactly these) and the error, if one was raised.  `n` counts the lines
already consumed, so the current line is physical line `n + 1`.
-/

/-- The per-line loop of `file_reader`: lines 209–223 of the source. -/
def readLines (path : String) (fields : Nat) :
    Nat → Bool → List (List String) → List (List String) × Option PyError
  | _, _, [] => ([], none)
  | n, header, line :: rest =>
    if line.length ≠ fields then
      ([], some (PyError.malformedLine path (n + 1) line.length fields))
    else if header then
      readLines path fields (n + 1) false rest
    else
      let r := readLines path fields (n + 1) false rest
      (line :: r.1, r.2)

/-- Source function `file_reader(path, fields, sep, header)`: `none` input models a path that
cannot be opened (`FileNotFoundError` re-raised with a fixed message before
any record is produced). -/
def file_reader (file : Option (List (List String))) (path : String)
    (fields : Nat) (header : Bool) : List (List String) × Option PyError :=
  match file with
  | none => ([], some (PyError.fileNotFound "File is not present on the provided path"))
  | some lines => readLines path fields 0 header lines

/-- On a well-formed suffix, `readLines` yields every line except a leading
header and reports no error. -/
theorem readLines_wellFormed (path : String) (fields : Nat)
    (lines : List (List String)) (hwf : ∀ l ∈ lines, l.length = fields) :
    ∀ n header, readLines path fields n header lines =
      (lines.drop (if header then 1 else 0), none) := by
  induction lines with
  | nil => intro n header; cases header <;> simp [readLines]
  | cons l rest ih =>
    intro n header
    have hl : l.length = fields := hwf l (List.mem_cons_self _ _)
    have hrest : ∀ x ∈ rest, x.length = fields := fun x hx => hwf x (List.mem_cons_of_mem _ hx)
    cases header with
    | false => simp [readLines, hl, ih hrest (n + 1) false]
    | true => simp [readLines, hl, ih hrest (n + 1) false]

/-!
## Entity model (source: classes `Major`, `Student`, `Instructor`,
`Student_Repository_Malav_Shah_11.py` lines 110–197)
-/

/-- Source class `Major`: name plus required/elective course sets (lines 110–118). -/
structure Major where
  major : String
  required : List String
  electives : List String
  deriving DecidableEq, Repr

/-- Source constant `Major.GRADES = {'A', 'A-', 'B+', 'B', 'B-', 'C+', 'C'}` (line 113),
the passing-grade set, in source order. -/
def Major.GRADES : List String := ["A", "A-", "B+", "B", "B-", "C+", "C"]

/-- Constructor `Major(major)` (lines 115–118): empty required/elective sets. -/
def Major.new (name : String) : Major := ⟨name, [], []⟩

/-- Source method `Major.add_course(course, option)` (lines 120–126): `R` adds to required,
`E` to electives, anything else raises `ValueError("Course Flag not Valid")`. -/
def Major.add_course (m : Major) (course : String) (option : String) :
    Except PyError Major :=
  if option = "R" then Except.ok { m with required := sadd m.required course }
  else if option = "E" then Except.ok { m with electives := sadd m.electives course }
  else Except.error (PyError.valueError "Course Flag not Valid")

/-- Source method `Major.remaining(completed)` (lines 128–138).  `completed` is the
student's course→grade dict.  `passed` is a set comprehension over its items;
`remaining` the set difference `required - passed`; the local `electives` is
rebound to the empty list when `passed` meets the elective set.  The three
sets are returned via `list(...)`, i.e. in set-iteration order, here modelled
as insertion order. -/
def Major.remaining (m : Major) (completed : List (String × String)) :
    String × List String × List String × List String :=
  let passed : List String :=
    (completed.filter fun p => p.2 ∈ Major.GRADES).map Prod.fst
  let remaining : List String := m.required.filter fun c => c ∉ passed
  let electives : List String :=
    if (m.electives.filter fun c => c ∈ passed) ≠ [] then [] else m.electives
  (m.major, passed, remaining, electives)

/-- Source method `Major.info()` (lines 140–142): `[major, sorted(required), sorted(electives)]`.
Python `sorted` is modelled by stable `List.insertionSort (· ≤ ·)`. -/
def Major.info (m : Major) : String × List String × List String :=
  (m.major, m.required.insertionSort (· ≤ ·), m.electives.insertionSort (· ≤ ·))

/-- Source class `Student` (lines 145–154): cwid, name, the referenced `Major` object, and
the course→grade dict. -/
structure Student where
  cwid : String
  name : String
  major : Major
  courses : List (String × String)
  deriving DecidableEq, Repr

/-- Source method `Student.add_course(course, grade)` (lines 156–158): dict assignment,
last write wins. -/
def Student.add_course (s : Student) (course grade : String) : Student :=
  { s with courses := aupdate s.courses course grade }

/-- The fixed grade→point dict local to `Student.gpa` (lines 162–163),
as a lookup function (floats as exact rationals). -/
def gradePoints (grade : String) : Option ℚ :=
  alookup [("A", 4), ("A-", 15/4), ("B+", 13/4), ("B", 3), ("B-", 11/4),
           ("C+", 9/4), ("C", 2), ("C-", 0), ("D+", 0), ("D", 0), ("D-", 0), ("F", 0)]
    grade

/-- Round a rational to the nearest integer, ties to even — Python's
rounding mode for `round`. -/
def bankersRound (q : ℚ) : ℤ :=
  let f : ℤ := ⌊q⌋
  let r : ℚ := q - f
  if r < 1/2 then f
  else if 1/2 < r then f + 1
  else if f % 2 = 0 then f else f + 1

/-- Model of Python `round(x, 2)`: decimal rounding of the exact value to 2 places,
ties to even. -/
def round2 (q : ℚ) : ℚ := (bankersRound (q * 100) : ℚ) / 100

/-- Source method `Student.gpa()` (lines 160–169).  The comprehension
`[grades[grade] for grade in self._courses.values()]` is evaluated first:
its first grade string missing from the table raises an uncaught `KeyError`.
Then the sum is divided by the number of courses; with zero courses the
`ZeroDivisionError` is caught, printed, and the method falls through
returning `None` — modelled as `Except.ok none`. -/
def Student.gpa (courses : List (String × String)) : Except PyError (Option ℚ) :=
  match (courses.map Prod.snd).mapM (fun g =>
      match gradePoints g with
      | some v => Except.ok v
      | none => Except.error (PyError.keyError g)) with
  | Except.error e => Except.error e
  | Except.ok pts =>
    if courses.length = 0 then Except.ok none
    else Except.ok (some (round2 (pts.sum / courses.length)))

/-- A row of the student table: cwid, name, major name, sorted passed,
sorted remaining required, sorted electives owed, GPA (or `None`). -/
structure StudentRow where
  cwid : String
  name : String
  major : String
  passed : List String
  remaining : List String
  electives : List String
  gpa : Option ℚ
  deriving DecidableEq, Repr

/-- Source method `Student.info()` (lines 171–176): delegates to `major.remaining`, sorts
each course list, and calls `gpa()` — whose `KeyError`, if any, propagates
out of `info` itself. -/
def Student.info (s : Student) : Except PyError StudentRow :=
  let r := s.major.remaining s.courses
  match Student.gpa s.courses with
  | Except.error e => Except.error e
  | Except.ok g =>
    Except.ok ⟨s.cwid, s.name, r.1, r.2.1.insertionSort (· ≤ ·),
      r.2.2.1.insertionSort (· ≤ ·), r.2.2.2.insertionSort (· ≤ ·), g⟩

/-- Source class `Instructor` (lines 179–188): cwid, name, dept, and the per-course
enrollment `defaultdict(int)`. -/
structure Instructor where
  cwid : String
  name : String
  dept : String
  courses : List (String × Nat)
  deriving DecidableEq, Repr

/-- Model of `self._courses[course] += 1` on a `defaultdict(int)`: a missing key is
materialised as 0 then incremented, i.e. appended as 1. -/
def bumpCount (courses : List (String × Nat)) (course : String) : List (String × Nat) :=
  match alookup courses course with
  | some n => aupdate courses course (n + 1)
  | none => courses ++ [(course, 1)]

/-- Source method `Instructor.add_student(course)` (lines 190–192). -/
def Instructor.add_student (i : Instructor) (course : String) : Instructor :=
  { i with courses := bumpCount i.courses course }

/-- The count an instructor reports for one course (0 when never seen). -/
def ccount (i : Instructor) (course : String) : Nat :=
  (alookup i.courses course).getD 0

/-- The sum of an instructor's per-course counts. -/
def ctotal (courses : List (String × Nat)) : Nat :=
  (courses.map Prod.snd).sum

/-!
## Load orchestration (source: class `Repository`,
`Student_Repository_Malav_Shah_11.py` lines 11–71)

Each `_get_*` phase iterates over the records its `file_reader` call yields
before any reader error; an exception raised inside the loop body
(`Major.add_course`) abandons the generator, so a later reader error is never
reached.  Printed diagnostics are modelled as structured values.
-/

/-- The record fields a phase unpacks: `file_reader` guarantees the arity, so
positional access with a default is exact on its output. -/
def fld (r : List String) (i : Nat) : String := (r.get? i).getD ""

/-- Source loop of `_get_majors` (lines 42–45): create the `Major` on first sighting
(the dict insert happens before `add_course`, so a major created by a record
whose flag then turns out invalid stays in the dict), then `add_course`. -/
def Repository.get_majors (majors : List (String × Major)) :
    List (List String) → List (String × Major) × Option PyError
  | [] => (majors, none)
  | r :: rest =>
    let name := fld r 0
    let flag := fld r 1
    let course := fld r 2
    let majors1 :=
      if (alookup majors name).isSome then majors
      else aupdate majors name (Major.new name)
    match (alookup majors1 name).getD (Major.new name) with
    | m =>
      match m.add_course course flag with
      | Except.error e => (majors1, some e)
      | Except.ok m1 => Repository.get_majors (aupdate majors1 name m1) rest

/-- A dropped-student diagnostic:
`print(f"Student {cwid} '{name}' has unknown major '{major}'")`,
carried structurally as (cwid, name, major). -/
structure StudentDiag where
  cwid : String
  name : String
  major : String
  deriving DecidableEq, Repr

/-- Source loop of `_get_students` (lines 49–53): a record whose major is unknown is
reported and dropped; otherwise the `Student` is stored under its cwid with a
reference to the existing `Major`. -/
def Repository.get_students (majors : List (String × Major))
    (students : List (String × Student)) :
    List (List String) → List (String × Student) × List StudentDiag
  | [] => (students, [])
  | r :: rest =>
    let cwid := fld r 0
    let name := fld r 1
    let mname := fld r 2
    match alookup majors mname with
    | none =>
      let res := Repository.get_students majors students rest
      (res.1, ⟨cwid, name, mname⟩ :: res.2)
    | some m =>
      Repository.get_students majors
        (aupdate students cwid ⟨cwid, name, m, []⟩) rest

/-- Source loop of `_get_instructors` (lines 57–58): unconditional insert. -/
def Repository.get_instructors (instructors : List (String × Instructor)) :
    List (List String) → List (String × Instructor)
  | [] => instructors
  | r :: rest =>
    Repository.get_instructors
      (aupdate instructors (fld r 0) ⟨fld r 0, fld r 1, fld r 2, []⟩) rest

/-- A skipped-half diagnostic from the grades phase: the printed message for
an unknown student or instructor cwid, carried structurally. -/
inductive GradeDiag where
  | unknownStudent (cwid : String)
  | unknownInstructor (cwid : String)
  deriving DecidableEq, Repr

/-- Source loop of `_get_grades` (lines 62–71).  The student-side and instructor-side
resolutions are two independent `if` statements: each half applies its update
when its cwid is known and prints a diagnostic otherwise. -/
def Repository.get_grades (students : List (String × Student))
    (instructors : List (String × Instructor)) :
    List (List String) →
      List (String × Student) × List (String × Instructor) × List GradeDiag
  | [] => (students, instructors, [])
  | r :: rest =>
    let scwid := fld r 0
    let course := fld r 1
    let grade := fld r 2
    let icwid := fld r 3
    let sres :
        List (String × Student) × List GradeDiag :=
      match alookup students scwid with
      | some s => (aupdate students scwid (s.add_course course grade), [])
      | none => (students, [GradeDiag.unknownStudent scwid])
    let ires :
        List (String × Instructor) × List GradeDiag :=
      match alookup instructors icwid with
      | some i => (aupdate instructors icwid (i.add_student course), [])
      | none => (instructors, [GradeDiag.unknownInstructor icwid])
    let res := Repository.get_grades sres.1 ires.1 rest
    (res.1, res.2.1, sres.2 ++ ires.2 ++ res.2.2)

/-- The four input files of a repository directory, each `none` when the
path cannot be opened. -/
structure FS where
  majorsFile : Option (List (List String))
  studentsFile : Option (List (List String))
  instructorsFile : Option (List (List String))
  gradesFile : Option (List (List String))

/-- The entity maps held by a `Repository`. -/
structure RepoState where
  majors : List (String × Major)
  students : List (String × Student)
  instructors : List (String × Instructor)
  deriving DecidableEq, Repr

/-- The `try` block of `Repository.__init__` (lines 20–24): the four phases in
order, stopping at the first raised `FileNotFoundError`/`ValueError` and
returning it with the state committed so far.  Within one phase, a loop-body
error (invalid course flag) preempts a reader error further down the file. -/
def Repository.load (fs : FS) : RepoState × Option PyError :=
  let mread := file_reader fs.majorsFile "majors.txt" 3 true
  let mres := Repository.get_majors [] mread.1
  match mres.2.orElse fun _ => mread.2 with
  | some e => (⟨mres.1, [], []⟩, some e)
  | none =>
    let sread := file_reader fs.studentsFile "students.txt" 3 true
    let sres := Repository.get_students mres.1 [] sread.1
    match sread.2 with
    | some e => (⟨mres.1, sres.1, []⟩, some e)
    | none =>
      let iread := file_reader fs.instructorsFile "instructors.txt" 3 true
      let ires := Repository.get_instructors [] iread.1
      match iread.2 with
      | some e => (⟨mres.1, sres.1, ires⟩, some e)
      | none =>
        let gread := file_reader fs.gradesFile "grades.txt" 4 true
        let gres := Repository.get_grades sres.1 ires gread.1
        (⟨mres.1, gres.1, gres.2.1⟩, gread.2)

/-- Source constructor `Repository.__init__` (lines 14–38): run the load; on a caught error the
`else` branch is skipped, so none of the four report views (majors table,
student table, instructor table, grade summary) is rendered.  The second
component records whether report generation ran. -/
def Repository.init (fs : FS) (tables : Bool) : RepoState × Bool :=
  let res := Repository.load fs
  match res.2 with
  | some _ => (res.1, false)
  | none => (res.1, tables)

/-!
## General lemmas about the dict and counter model
-/

theorem mem_aupdate {α : Type} (d : List (String × α)) (k : String) (v : α) :
    ∀ p ∈ aupdate d k v, p ∈ d ∨ p = (k, v) := by
  induction d with
  | nil => intro p hp; simp [aupdate] at hp; simp [hp]
  | cons q rest ih =>
    obtain ⟨k0, v0⟩ := q
    intro p hp
    by_cases h : k0 = k
    · simp [aupdate, h] at hp
      rcases hp with h1 | h1
      · right; simp [h1]
      · left; simp [h1]
    · simp [aupdate, h] at hp
      rcases hp with h1 | h1
      · left; simp [h1]
      · rcases ih p h1 with h2 | h2
        · left; simp [h2]
        · right; exact h2

theorem isSome_alookup_aupdate {α : Type} (d : List (String × α)) (k k' : String)
    (v : α) (h : (alookup d k).isSome) : (alookup (aupdate d k' v) k).isSome := by
  by_cases hk : k' = k
  · subst hk; simp [alookup_aupdate_self]
  · rwa [alookup_aupdate_ne _ _ _ _ hk]

theorem ccount_add_student (i : Instructor) (course c : String) :
    ccount (i.add_student course) c = ccount i c + (if course = c then 1 else 0) := by
  unfold Instructor.add_student ccount bumpCount
  cases h : alookup i.courses course with
  | some n =>
    by_cases hc : course = c
    · subst hc; simp [alookup_aupdate_self, h]
    · simp [alookup_aupdate_ne _ _ _ _ hc, hc]
  | none =>
    by_cases hc : course = c
    · subst hc
      simp [alookup_append, h, alookup, Option.orElse]
    · simp only [alookup_append]
      have : alookup [(course, 1)] c = none := by simp [alookup, hc]
      rw [this]
      cases halt : alookup i.courses c <;> simp [Option.orElse, hc]

theorem ctotal_aupdate_succ (d : List (String × Nat)) (k : String) (n : Nat)
    (h : alookup d k = some n) : ctotal (aupdate d k (n + 1)) = ctotal d + 1 := by
  induction d with
  | nil => simp [alookup] at h
  | cons q rest ih =>
    obtain ⟨k0, v0⟩ := q
    by_cases hk : k0 = k
    · subst hk
      simp [alookup] at h
      subst h
      simp [aupdate, ctotal]
      omega
    · simp [alookup, hk] at h
      have ih2 := ih h
      simp [aupdate, hk, ctotal] at ih2 ⊢
      omega

theorem ctotal_bumpCount (cs : List (String × Nat)) (c : String) :
    ctotal (bumpCount cs c) = ctotal cs + 1 := by
  unfold bumpCount
  cases h : alookup cs c with
  | some n => exact ctotal_aupdate_succ cs c n h
  | none => simp [ctotal]

theorem bankersRound_intCast (n : ℤ) : bankersRound (n : ℚ) = n := by
  simp [bankersRound]

theorem round2_intCast (n : ℤ) : round2 ((n : ℚ) / 100) = (n : ℚ) / 100 := by
  unfold round2
  have h : ((n : ℚ) / 100) * 100 = (n : ℚ) := by field_simp
  rw [h, bankersRound_intCast]

/-!
## Claim C7: record count and header handling of `file_reader`
-/

/-- Helper: on a suffix whose first bad line (if any) is at relative index
`i`, `readLines` stops there with the malformed-line error, yielding exactly
the earlier lines (minus a leading header). -/
theorem readLines_firstBad (path : String) (fields : Nat) :
    ∀ (lines : List (List String)) (n : Nat) (header : Bool) (i : Nat)
      (h1 : i < lines.length),
      (lines.get ⟨i, h1⟩).length ≠ fields →
      (∀ j : Fin lines.length, (j : ℕ) < i → (lines.get j).length = fields) →
      readLines path fields n header lines =
        ((lines.take i).drop (if header then 1 else 0),
         some (PyError.malformedLine path (n + i + 1) (lines.get ⟨i, h1⟩).length fields)) := by
  intro lines
  induction lines with
  | nil => intro n header i h1; exact absurd h1 (by simp)
  | cons l rest ih =>
    intro n header i h1 h2 h3
    cases i with
    | zero =>
      simp only [List.get] at h2
      cases header <;> simp [readLines, h2]
    | succ j =>
      have hl : l.length = fields := h3 ⟨0, by simp⟩ (Nat.succ_pos j)
      have hj : j < rest.length := by simp at h1; omega
      have h2' : (rest.get ⟨j, hj⟩).length ≠ fields := by simpa using h2
      have h3' : ∀ k : Fin rest.length, (k : ℕ) < j → (rest.get k).length = fields := by
        intro k hk
        have := h3 ⟨k + 1, Nat.succ_lt_succ k.2⟩ (Nat.succ_lt_succ hk)
        simpa using this
      have hn : n + 1 + j + 1 = n + (j + 1) + 1 := by omega
      cases header with
      | true =>
        have hstep : readLines path fields n true (l :: rest) =
            readLines path fields (n + 1) false rest := by
          simp [readLines, hl]
        rw [hstep, ih (n + 1) false j hj h2' h3']
        simp [List.take_succ_cons, hn]
      | false =>
        have hstep : readLines path fields n false (l :: rest) =
            (l :: (readLines path fields (n + 1) false rest).1,
             (readLines path fields (n + 1) false rest).2) := by
          simp [readLines, hl]
        rw [hstep, ih (n + 1) false j hj h2' h3']
        simp [List.take_succ_cons, hn]

/-- C7: for every well-formed input file of `L` lines (every line having the
expected field count) and header flag `H ∈ {0,1}` with `H ≤ L`, `file_reader`
yields exactly `L − H` records, namely all lines after the first `H`: with the
header flag set, exactly the first line is discarded rather than yielded.
Moreover the header line's field count is still validated before it is
skipped: a file whose first line is malformed errors at line 1 even under the
header flag. -/
theorem file_reader_yields_count :
    (∀ (lines : List (List String)) (path : String) (fields : Nat) (header : Bool),
      (∀ l ∈ lines, l.length = fields) →
      (if header then 1 else 0) ≤ lines.length →
      file_reader (some lines) path fields header =
          (lines.drop (if header then 1 else 0), none) ∧
        (file_reader (some lines) path fields header).1.length =
          lines.length - (if header then 1 else 0)) ∧
    (∀ (l : List String) (rest : List (List String)) (path : String) (fields : Nat),
      l.length ≠ fields →
      file_reader (some (l :: rest)) path fields true =
        ([], some (PyError.malformedLine path 1 l.length fields))) := by
  constructor
  · intro lines path fields header hwf _
    have h := readLines_wellFormed path fields lines hwf 0 header
    refine ⟨h, ?_⟩
    simp only [file_reader, h, List.length_drop]
  · intro l rest path fields hbad
    simp [file_reader, readLines, hbad]

/-- Witness for C7 at a concrete three-line file with a header: two records
come back, the header content is gone, and a bad header line is rejected at
line 1. -/
theorem file_reader_yields_count_witness :
    (file_reader (some [["h1", "h2"], ["a", "b"], ["c", "d"]]) "students.txt" 2 true =
        ([["a", "b"], ["c", "d"]], none) ∧
      (file_reader (some [["h1", "h2"], ["a", "b"], ["c", "d"]]) "students.txt" 2 true).1.length = 2) ∧
    file_reader (some [["h1"], ["a", "b"]]) "students.txt" 2 true =
      ([], some (PyError.malformedLine "students.txt" 1 1 2)) := by
  constructor
  · have h := file_reader_yields_count.1 [["h1", "h2"], ["a", "b"], ["c", "d"]]
      "students.txt" 2 true (by decide) (by decide)
    exact ⟨h.1, h.2⟩
  · exact file_reader_yields_count.2 ["h1"] [["a", "b"]] "students.txt" 2 (by decide)

/-!
## Claim C8: first malformed line is fatal and carries its context
-/

/-- C8: if line `i` (0-based; line `i + 1` in the 1-based numbering of the
error) is the first line whose field count differs from `fields`, then
`file_reader` raises the malformed-line `ValueError` carrying the path, the
1-based line number, the actual count and the expected count, and the records
yielded are exactly the (non-header) lines strictly before it: nothing is
yielded at or after the offending line, and the error reaches the caller. -/
theorem file_reader_first_malformed (lines : List (List String)) (path : String)
    (fields : Nat) (header : Bool) (i : Nat) (h1 : i < lines.length)
    (h2 : (lines.get ⟨i, h1⟩).length ≠ fields)
    (h3 : ∀ j : Fin lines.length, (j : ℕ) < i → (lines.get j).length = fields) :
    file_reader (some lines) path fields header =
      ((lines.take i).drop (if header then 1 else 0),
       some (PyError.malformedLine path (i + 1) (lines.get ⟨i, h1⟩).length fields)) := by
  have h := readLines_firstBad path fields lines 0 header i h1 h2 h3
  simpa [file_reader] using h

/-- Witness for C8: a four-line file whose third line has one field instead
of two errors at line 3 having yielded only the single record before it (the
header was discarded); the fourth line is never reached. -/
theorem file_reader_first_malformed_witness :
    file_reader (some [["h1", "h2"], ["a", "b"], ["c"], ["d", "e"]]) "grades.txt" 2 true =
      ([["a", "b"]], some (PyError.malformedLine "grades.txt" 3 1 2)) := by
  have h := file_reader_first_malformed [["h1", "h2"], ["a", "b"], ["c"], ["d", "e"]]
    "grades.txt" 2 true 2 (by decide) (by decide) (by decide)
  exact h.trans (by decide)

/-!
## Claim C4: the progress algorithm of `Major.remaining`
-/

/-- C4: for every major and course-to-grade mapping, `Major.remaining`
computes `passed` as exactly the completed courses whose grade is in the
fixed set {A, A-, B+, B, B-, C+, C} by exact string match, `remaining` as the
set difference required − passed, and applies the all-or-nothing elective
policy: the electives owed are empty when some passed course is an elective
and the full elective set otherwise. -/
theorem Major_remaining_algorithm (m : Major) (completed : List (String × String)) :
    (∀ c, c ∈ (m.remaining completed).2.1 ↔
        ∃ g, (c, g) ∈ completed ∧ g ∈ Major.GRADES) ∧
    (∀ c, c ∈ (m.remaining completed).2.2.1 ↔
        c ∈ m.required ∧ c ∉ (m.remaining completed).2.1) ∧
    ((∃ c, c ∈ (m.remaining completed).2.1 ∧ c ∈ m.electives) →
        (m.remaining completed).2.2.2 = []) ∧
    ((¬ ∃ c, c ∈ (m.remaining completed).2.1 ∧ c ∈ m.electives) →
        (m.remaining completed).2.2.2 = m.electives) := by
  unfold Major.remaining
  refine ⟨?_, ?_, ?_, ?_⟩
  · intro c
    simp only [List.mem_map, List.mem_filter]
    constructor
    · rintro ⟨⟨c', g⟩, ⟨hmem, hg⟩, rfl⟩
      exact ⟨g, hmem, by simpa using hg⟩
    · rintro ⟨g, hmem, hg⟩
      exact ⟨(c, g), ⟨hmem, by simpa using hg⟩, rfl⟩
  · intro c
    simp [List.mem_filter]
  · rintro ⟨c, hc, he⟩
    have hne : (m.electives.filter
        fun x => x ∈ (completed.filter fun p => p.2 ∈ Major.GRADES).map Prod.fst) ≠ [] := by
      intro hnil
      have hall := List.filter_eq_nil_iff.mp hnil c he
      simp only [decide_eq_true_eq] at hall
      exact hall hc
    show (if (m.electives.filter
        fun x => x ∈ (completed.filter fun p => p.2 ∈ Major.GRADES).map Prod.fst) ≠ []
      then ([] : List String) else m.electives) = []
    rw [if_pos hne]
  · intro h
    have hnil : (m.electives.filter
        fun x => x ∈ (completed.filter fun p => p.2 ∈ Major.GRADES).map Prod.fst) = [] := by
      rw [List.filter_eq_nil_iff]
      intro c hc
      simp only [decide_eq_true_eq]
      intro hmem
      exact h ⟨c, hmem, hc⟩
    show (if (m.electives.filter
        fun x => x ∈ (completed.filter fun p => p.2 ∈ Major.GRADES).map Prod.fst) ≠ []
      then ([] : List String) else m.electives) = m.electives
    rw [if_neg (by simp [hnil])]

/-- Witness for C4 on the end-to-end example of the specification: major CS
requires CS101 with elective CS200; a student who passed CS101 with B+ owes
no required course and the whole elective set. -/
theorem Major_remaining_algorithm_witness :
    ((Major.mk "CS" ["CS101"] ["CS200"]).remaining [("CS101", "B+")]).2.2.2 = ["CS200"] ∧
    ("CS101" ∈ ((Major.mk "CS" ["CS101"] ["CS200"]).remaining [("CS101", "B+")]).2.1 ↔
      ∃ g, ("CS101", g) ∈ [("CS101", "B+")] ∧ g ∈ Major.GRADES) := by
  constructor
  · exact (Major_remaining_algorithm (Major.mk "CS" ["CS101"] ["CS200"])
      [("CS101", "B+")]).2.2.2 (by decide)
  · exact (Major_remaining_algorithm (Major.mk "CS" ["CS101"] ["CS200"])
      [("CS101", "B+")]).1 "CS101"

/-!
## Claim C6: which lists come back sorted

`Major.remaining` returns its three course collections via `list(...)` applied
to Python sets, whose iteration order is unspecified (hash-based) — in this
embedding, insertion order.  Sorting is applied only afterwards, by
`sorted(...)` inside `Student.info`.
-/

/-- Counterexample to C6 as stated: with completed courses inserted as
`b` before `a` (both passing), the second component of `Major.remaining` is
`["b", "a"]`, which is not a sorted list.  (Python's set order is
unspecified, so no ordering — in particular not the sorted one — is
guaranteed; the embedding's insertion order realises this.) -/
theorem Major_remaining_unsorted_cex :
    ((Major.mk "CS" [] []).remaining [("b", "A"), ("a", "A")]).2.1 = ["b", "a"] ∧
    ¬ List.Sorted (fun x y => x ≤ y) ["b", "a"] := by
  constructor
  · rfl
  · simp only [List.sorted_cons, String.le_iff_toList_le]
    intro h
    exact absurd (h.1 "a" (by simp)) (by decide)

/-- C6 as amended: `Major.remaining` returns its components in unspecified
set order; it is `Student.info` that sorts them, so every successfully
produced student row carries sorted passed, remaining-required and
electives-owed lists. -/
theorem Student_info_sorted (s : Student) (row : StudentRow)
    (h : Student.info s = Except.ok row) :
    List.Sorted (fun x y => x ≤ y) row.passed ∧
    List.Sorted (fun x y => x ≤ y) row.remaining ∧
    List.Sorted (fun x y => x ≤ y) row.electives := by
  unfold Student.info at h
  cases hgpa : Student.gpa s.courses with
  | error e => rw [hgpa] at h; simp at h
  | ok g =>
    rw [hgpa] at h
    simp only [Except.ok.injEq] at h
    subst h
    exact ⟨List.sorted_insertionSort _ _, List.sorted_insertionSort _ _,
      List.sorted_insertionSort _ _⟩

/-- Witness for the amended C6 at a concrete student (no courses, major
requiring one course): the produced row's three lists are sorted. -/
theorem Student_info_sorted_witness :
    List.Sorted (fun x y => x ≤ y) (StudentRow.mk "1" "Amy" "CS" [] ["a"] [] none).passed ∧
    List.Sorted (fun x y => x ≤ y) (StudentRow.mk "1" "Amy" "CS" [] ["a"] [] none).remaining ∧
    List.Sorted (fun x y => x ≤ y) (StudentRow.mk "1" "Amy" "CS" [] ["a"] [] none).electives :=
  Student_info_sorted ⟨"1", "Amy", ⟨"CS", ["a"], []⟩, []⟩ _ rfl

/-!
## Claim C10: `Major.remaining` is a pure query
-/

/-- Model of the method call `m.remaining(completed)` together with the
post-call states of the receiver and of the argument.  The body (lines
128–138) only binds the local names `passed`, `remaining`, `electives` —
in particular `electives = []` rebinds the local, it does not assign
`self._electives` — and contains no assignment to `self` or to an entry of
`completed`, so both objects come back as received. -/
def Major.remaining_call (m : Major) (completed : List (String × String)) :
    Major × List (String × String) ×
      (String × List String × List String × List String) :=
  (m, completed, m.remaining completed)

/-- C10: calling `remaining` leaves the major's name, required set and
elective set unchanged, leaves the passed-in mapping unchanged, and a
repeated call on the post-call state returns the same result. -/
theorem Major_remaining_pure (m : Major) (completed : List (String × String)) :
    (m.remaining_call completed).1 = m ∧
    (m.remaining_call completed).2.1 = completed ∧
    (m.remaining_call completed).1.required = m.required ∧
    (m.remaining_call completed).1.electives = m.electives ∧
    (m.remaining_call completed).1.major = m.major ∧
    ((m.remaining_call completed).1.remaining_call
        (m.remaining_call completed).2.1).2.2 =
      (m.remaining_call completed).2.2 :=
  ⟨rfl, rfl, rfl, rfl, rfl, rfl⟩

/-!
## Claims C5 and C2: GPA computation and the unknown-grade fault
-/

/-- Helper: when every grade is in the point table, the comprehension
`[grades[grade] for grade in ...]` succeeds with the looked-up points. -/
theorem gpa_points_ok (gs : List String) (h : ∀ g ∈ gs, (gradePoints g).isSome) :
    gs.mapM (fun g =>
        match gradePoints g with
        | some v => Except.ok v
        | none => Except.error (PyError.keyError g)) =
      Except.ok (gs.map fun g => (gradePoints g).getD 0) := by
  induction gs with
  | nil => rfl
  | cons a rest ih =>
    obtain ⟨v, hv⟩ := Option.isSome_iff_exists.mp (h a (by simp))
    rw [List.mapM_cons, ih fun g hg => h g (by simp [hg])]
    simp [hv]
    rfl

/-- Helper: the comprehension raises `KeyError` on the first grade missing
from the point table. -/
theorem gpa_points_err (gs : List String) (g : String)
    (h : gs.find? (fun x => (gradePoints x).isNone) = some g) :
    gs.mapM (fun x =>
        match gradePoints x with
        | some v => Except.ok v
        | none => Except.error (PyError.keyError x)) =
      Except.error (PyError.keyError g) := by
  induction gs with
  | nil => simp at h
  | cons a rest ih =>
    by_cases ha : (gradePoints a).isNone
    · rw [List.find?_cons_of_pos _ (by simpa using ha)] at h
      obtain rfl : a = g := by simpa using h
      rw [List.mapM_cons]
      simp only [Option.isNone_iff_eq_none.mp ha]
      rfl
    · rw [List.find?_cons_of_neg _ (by simpa using ha)] at h
      cases hv : gradePoints a with
      | none => exact absurd (by simp [hv]) ha
      | some v =>
        rw [List.mapM_cons, ih h]
        simp only [hv]
        rfl

/-- C5: for every nonempty course map whose grades are all in the fixed
grade-point table, `Student.gpa` returns the arithmetic mean of the point
values over all recorded courses, rounded to two decimal places. -/
theorem Student_gpa_mean (courses : List (String × String)) (hne : courses ≠ [])
    (hknown : ∀ p ∈ courses, (gradePoints p.2).isSome) :
    Student.gpa courses = Except.ok (some (round2
      ((courses.map fun p => (gradePoints p.2).getD 0).sum / (courses.length : ℚ)))) := by
  have hmapm := gpa_points_ok (courses.map Prod.snd) (by
    intro g hg
    obtain ⟨p, hp, rfl⟩ := List.mem_map.mp hg
    exact hknown p hp)
  simp only [Student.gpa, hmapm]
  rw [if_neg (by simpa using hne)]
  rw [List.map_map]
  rfl

/-- Evaluation lemma: rounding an integral rational to two decimals is the
identity. -/
theorem round2_int (n : ℤ) : round2 ((n : ℚ)) = (n : ℚ) := by
  unfold round2
  have h : ((n : ℚ) * 100) = ((n * 100 : ℤ) : ℚ) := by push_cast; ring
  rw [h, bankersRound_intCast]
  push_cast
  ring

/-- Witness for C5: courses {A, A} give GPA 4.0 and {A, C} give 3.0, through
the mean formula. -/
theorem Student_gpa_mean_witness :
    Student.gpa [("c1", "A"), ("c2", "A")] = Except.ok (some 4) ∧
    Student.gpa [("c1", "A"), ("c2", "C")] = Except.ok (some 3) := by
  constructor
  · rw [Student_gpa_mean [("c1", "A"), ("c2", "A")] (by simp) (by decide)]
    have hmap : (([("c1", "A"), ("c2", "A")] : List (String × String)).map
        fun p => (gradePoints p.2).getD 0) = [4, 4] := rfl
    have h2 : ((([("c1", "A"), ("c2", "A")] : List (String × String)).map
          fun p => (gradePoints p.2).getD 0).sum /
        (([("c1", "A"), ("c2", "A")] : List (String × String)).length : ℚ)) = ((4 : ℤ) : ℚ) := by
      rw [hmap]
      norm_num
    rw [h2, round2_int]
    norm_num
  · rw [Student_gpa_mean [("c1", "A"), ("c2", "C")] (by simp) (by decide)]
    have hmap : (([("c1", "A"), ("c2", "C")] : List (String × String)).map
        fun p => (gradePoints p.2).getD 0) = [4, 2] := rfl
    have h2 : ((([("c1", "A"), ("c2", "C")] : List (String × String)).map
          fun p => (gradePoints p.2).getD 0).sum /
        (([("c1", "A"), ("c2", "C")] : List (String × String)).length : ℚ)) = ((3 : ℤ) : ℚ) := by
      rw [hmap]
      norm_num
    rw [h2, round2_int]
    norm_num

/-- Counterexample to C2 as stated: a student whose single course carries the
grade string `Z` (absent from the point table).  `Student.gpa` does not
return a reported per-student value: the `KeyError` escapes, because the
`try` at lines 164–169 catches only `ZeroDivisionError`.  The result is the
propagated fault, not any `ok` outcome. -/
theorem Student_gpa_unknown_cex :
    Student.gpa [("CS101", "Z")] = Except.error (PyError.keyError "Z") ∧
    (Student.gpa [("CS101", "Z")]).isOk = false := by
  constructor <;> rfl

/-- C2 as amended: a grade string absent from the fixed point table makes
`Student.gpa` raise `KeyError` on the first such grade, and the error
propagates to the caller as a run-terminating fault; only the zero-courses
`ZeroDivisionError` is caught and reported per-student (the call then
returns the `None` sentinel). -/
theorem Student_gpa_unknown_raises (courses : List (String × String)) (g : String)
    (h : (courses.map Prod.snd).find? (fun x => (gradePoints x).isNone) = some g) :
    Student.gpa courses = Except.error (PyError.keyError g) ∧
    Student.gpa [] = Except.ok none := by
  refine ⟨?_, rfl⟩
  simp only [Student.gpa, gpa_points_err (courses.map Prod.snd) g h]

/-- Witness for the amended C2 at a concrete unknown grade. -/
theorem Student_gpa_unknown_raises_witness :
    Student.gpa [("x", "Q"), ("y", "A")] = Except.error (PyError.keyError "Q") ∧
    Student.gpa [] = Except.ok none :=
  Student_gpa_unknown_raises [("x", "Q"), ("y", "A")] "Q" (by rfl)

/-!
## Claim C9: admission of students and the student→major invariant
-/

/-- Helper: the students-phase fold preserves the invariant that every stored
student's major is reachable in the majors map. -/
theorem get_students_inv (majors : List (String × Major)) :
    ∀ (recs : List (List String)) (students : List (String × Student)),
      (∀ p ∈ students, ∃ nm, alookup majors nm = some p.2.major) →
      ∀ p ∈ (Repository.get_students majors students recs).1,
        ∃ nm, alookup majors nm = some p.2.major := by
  intro recs
  induction recs with
  | nil => intro students hinv p hp; exact hinv p (by simpa [Repository.get_students] using hp)
  | cons r rest ih =>
    intro students hinv p hp
    cases hm : alookup majors (fld r 2) with
    | none =>
      exact ih students hinv p (by simpa [Repository.get_students, hm] using hp)
    | some m =>
      refine ih (aupdate students (fld r 0) ⟨fld r 0, fld r 1, m, []⟩) ?_ p
        (by simpa [Repository.get_students, hm] using hp)
      intro q hq
      rcases mem_aupdate _ _ _ q hq with h1 | h1
      · exact hinv q h1
      · subst h1; exact ⟨fld r 2, hm⟩

/-- Helper: once a cwid is present in the students map, the rest of the phase
keeps it present (later records can only overwrite, not remove). -/
theorem get_students_keeps (majors : List (String × Major)) :
    ∀ (recs : List (List String)) (students : List (String × Student)) (cwid : String),
      (alookup students cwid).isSome →
      (alookup (Repository.get_students majors students recs).1 cwid).isSome := by
  intro recs
  induction recs with
  | nil => intro students cwid h; simpa [Repository.get_students] using h
  | cons r rest ih =>
    intro students cwid h
    cases hm : alookup majors (fld r 2) with
    | none =>
      have := ih students cwid h
      simpa [Repository.get_students, hm] using this
    | some m =>
      have := ih (aupdate students (fld r 0) ⟨fld r 0, fld r 1, m, []⟩) cwid
        (isSome_alookup_aupdate _ _ _ _ h)
      simpa [Repository.get_students, hm] using this

/-- Helper: a record whose major is known gets its student admitted. -/
theorem get_students_adds (majors : List (String × Major)) :
    ∀ (recs : List (List String)) (students : List (String × Student)),
      ∀ r ∈ recs, (alookup majors (fld r 2)).isSome →
      (alookup (Repository.get_students majors students recs).1 (fld r 0)).isSome := by
  intro recs
  induction recs with
  | nil => intro students r hr; exact absurd hr (by simp)
  | cons r0 rest ih =>
    intro students r hr hk
    rcases List.mem_cons.mp hr with rfl | hr'
    · obtain ⟨m, hm⟩ := Option.isSome_iff_exists.mp hk
      have hkeep := get_students_keeps majors rest
        (aupdate students (fld r 0) ⟨fld r 0, fld r 1, m, []⟩) (fld r 0)
        (by rw [alookup_aupdate_self]; rfl)
      simpa [Repository.get_students, hm] using hkeep
    · cases hm : alookup majors (fld r0 2) with
      | none =>
        have := ih students r hr' hk
        simpa [Repository.get_students, hm] using this
      | some m =>
        have := ih (aupdate students (fld r0 0) ⟨fld r0 0, fld r0 1, m, []⟩) r hr' hk
        simpa [Repository.get_students, hm] using this

/-- Helper: the diagnostics of the students phase are exactly the records
whose major is unknown, in encounter order. -/
theorem get_students_diags (majors : List (String × Major)) :
    ∀ (recs : List (List String)) (students : List (String × Student)),
      (Repository.get_students majors students recs).2 =
        recs.filterMap fun r =>
          if alookup majors (fld r 2) = none
          then some ⟨fld r 0, fld r 1, fld r 2⟩ else none := by
  intro recs
  induction recs with
  | nil => intro students; simp [Repository.get_students]
  | cons r rest ih =>
    intro students
    cases hm : alookup majors (fld r 2) with
    | none => simp [Repository.get_students, hm, ih]
    | some m => simp [Repository.get_students, hm, ih]

/-- C9: during the students load phase, each record whose major is absent
from the majors map yields a diagnostic (and only those records do); each
record whose major is known gets its student admitted under its cwid; and
every student present in the resulting store references a `Major` that exists
in the majors map. -/
theorem get_students_admission (majors : List (String × Major)) (recs : List (List String)) :
    ((Repository.get_students majors [] recs).2 =
      recs.filterMap fun r =>
        if alookup majors (fld r 2) = none
        then some ⟨fld r 0, fld r 1, fld r 2⟩ else none) ∧
    (∀ r ∈ recs, (alookup majors (fld r 2)).isSome →
      (alookup (Repository.get_students majors [] recs).1 (fld r 0)).isSome) ∧
    (∀ p ∈ (Repository.get_students majors [] recs).1,
      ∃ nm, alookup majors nm = some p.2.major) :=
  ⟨get_students_diags majors recs [],
   fun r hr hk => get_students_adds majors recs [] r hr hk,
   get_students_inv majors recs [] (by simp)⟩

/-- Witness for C9: with only major CS loaded, the record of Amy (major CS)
is admitted and the record of Bob (major EE) is dropped with a diagnostic. -/
theorem get_students_admission_witness :
    (Repository.get_students [("CS", Major.mk "CS" [] [])] []
        [["1", "Amy", "CS"], ["2", "Bob", "EE"]]).2 = [⟨"2", "Bob", "EE"⟩] ∧
    (alookup (Repository.get_students [("CS", Major.mk "CS" [] [])] []
        [["1", "Amy", "CS"], ["2", "Bob", "EE"]]).1 "1").isSome := by
  constructor
  · exact (get_students_admission [("CS", Major.mk "CS" [] [])]
      [["1", "Amy", "CS"], ["2", "Bob", "EE"]]).1.trans (by decide)
  · exact (get_students_admission [("CS", Major.mk "CS" [] [])]
      [["1", "Amy", "CS"], ["2", "Bob", "EE"]]).2.1 ["1", "Amy", "CS"] (by decide) (by decide)

/-!
## Claim C1: what the per-course enrollment counters count

In `_get_grades` (lines 62–71) the student-side and the instructor-side
resolutions are two independent `if` statements: the instructor counter is
incremented for every record naming a known instructor, whether or not the
student cwid is known.
-/

/-- Amended C1: for an instructor present in the map with current state `I`,
running the grades phase leaves that instructor's count for a course equal to
its previous value plus the number of processed grade records naming that
instructor's cwid and that course — with no condition on the student cwid —
and its total count grows by the number of records naming that instructor's
cwid. -/
theorem get_grades_instructor_counts :
    ∀ (recs : List (List String)) (students : List (String × Student))
      (instructors : List (String × Instructor)) (icwid course : String) (I : Instructor),
      alookup instructors icwid = some I →
      ((alookup (Repository.get_grades students instructors recs).2.1 icwid).map
          fun J => ccount J course) =
        some (ccount I course +
          recs.countP fun r => decide (fld r 3 = icwid ∧ fld r 1 = course)) ∧
      ((alookup (Repository.get_grades students instructors recs).2.1 icwid).map
          fun J => ctotal J.courses) =
        some (ctotal I.courses + recs.countP fun r => decide (fld r 3 = icwid)) := by
  intro recs
  induction recs with
  | nil =>
    intro students instructors icwid course I hI
    constructor <;> simp [Repository.get_grades, hI]
  | cons r rest ih =>
    intro students instructors icwid course I hI
    by_cases heq : fld r 3 = icwid
    · have hi : alookup instructors (fld r 3) = some I := by rw [heq]; exact hI
      have hI1 : alookup (aupdate instructors (fld r 3) (I.add_student (fld r 1))) icwid
          = some (I.add_student (fld r 1)) := by
        rw [heq]; exact alookup_aupdate_self _ _ _
      cases hs : alookup students (fld r 0) with
      | some s =>
        have hstep : (Repository.get_grades students instructors (r :: rest)).2.1 =
            (Repository.get_grades
              (aupdate students (fld r 0) (s.add_course (fld r 1) (fld r 2)))
              (aupdate instructors (fld r 3) (I.add_student (fld r 1))) rest).2.1 := by
          simp [Repository.get_grades, hs, hi]
        obtain ⟨h1, h2⟩ := ih _ _ icwid course _ hI1
        constructor
        · rw [hstep, h1, ccount_add_student, List.countP_cons]
          by_cases hcc : fld r 1 = course <;> simp [heq, hcc]
          omega
        · rw [hstep, h2]
          have ht : ctotal (I.add_student (fld r 1)).courses = ctotal I.courses + 1 :=
            ctotal_bumpCount I.courses (fld r 1)
          rw [ht, List.countP_cons]
          simp [heq]
          omega
      | none =>
        have hstep : (Repository.get_grades students instructors (r :: rest)).2.1 =
            (Repository.get_grades students
              (aupdate instructors (fld r 3) (I.add_student (fld r 1))) rest).2.1 := by
          simp [Repository.get_grades, hs, hi]
        obtain ⟨h1, h2⟩ := ih _ _ icwid course _ hI1
        constructor
        · rw [hstep, h1, ccount_add_student, List.countP_cons]
          by_cases hcc : fld r 1 = course <;> simp [heq, hcc]
          omega
        · rw [hstep, h2]
          have ht : ctotal (I.add_student (fld r 1)).courses = ctotal I.courses + 1 :=
            ctotal_bumpCount I.courses (fld r 1)
          rw [ht, List.countP_cons]
          simp [heq]
          omega
    · have hIkeep : ∀ instructors1 : List (String × Instructor),
          alookup instructors1 icwid = some I →
          ∀ students1,
          ((alookup (Repository.get_grades students1 instructors1 rest).2.1 icwid).map
              fun J => ccount J course) =
            some (ccount I course +
              rest.countP fun x => decide (fld x 3 = icwid ∧ fld x 1 = course)) ∧
          ((alookup (Repository.get_grades students1 instructors1 rest).2.1 icwid).map
              fun J => ctotal J.courses) =
            some (ctotal I.courses + rest.countP fun x => decide (fld x 3 = icwid)) :=
        fun instructors1 h1 students1 => ih students1 instructors1 icwid course I h1
      cases hi : alookup instructors (fld r 3) with
      | some j =>
        have hI1 : alookup (aupdate instructors (fld r 3) (j.add_student (fld r 1))) icwid
            = some I := by
          rw [alookup_aupdate_ne _ _ _ _ heq]; exact hI
        cases hs : alookup students (fld r 0) with
        | some s =>
          have hstep : (Repository.get_grades students instructors (r :: rest)).2.1 =
              (Repository.get_grades
                (aupdate students (fld r 0) (s.add_course (fld r 1) (fld r 2)))
                (aupdate instructors (fld r 3) (j.add_student (fld r 1))) rest).2.1 := by
            simp [Repository.get_grades, hs, hi]
          obtain ⟨h1, h2⟩ := hIkeep _ hI1 _
          constructor
          · rw [hstep, h1, List.countP_cons]; simp [heq]
          · rw [hstep, h2, List.countP_cons]; simp [heq]
        | none =>
          have hstep : (Repository.get_grades students instructors (r :: rest)).2.1 =
              (Repository.get_grades students
                (aupdate instructors (fld r 3) (j.add_student (fld r 1))) rest).2.1 := by
            simp [Repository.get_grades, hs, hi]
          obtain ⟨h1, h2⟩ := hIkeep _ hI1 _
          constructor
          · rw [hstep, h1, List.countP_cons]; simp [heq]
          · rw [hstep, h2, List.countP_cons]; simp [heq]
      | none =>
        cases hs : alookup students (fld r 0) with
        | some s =>
          have hstep : (Repository.get_grades students instructors (r :: rest)).2.1 =
              (Repository.get_grades
                (aupdate students (fld r 0) (s.add_course (fld r 1) (fld r 2)))
                instructors rest).2.1 := by
            simp [Repository.get_grades, hs, hi]
          obtain ⟨h1, h2⟩ := hIkeep _ hI _
          constructor
          · rw [hstep, h1, List.countP_cons]; simp [heq]
          · rw [hstep, h2, List.countP_cons]; simp [heq]
        | none =>
          have hstep : (Repository.get_grades students instructors (r :: rest)).2.1 =
              (Repository.get_grades students instructors rest).2.1 := by
            simp [Repository.get_grades, hs, hi]
          obtain ⟨h1, h2⟩ := hIkeep _ hI _
          constructor
          · rw [hstep, h1, List.countP_cons]; simp [heq]
          · rw [hstep, h2, List.countP_cons]; simp [heq]

/-- Counterexample to C1 as stated: one grade record names the known
instructor 9 for course CS101 but an unknown student cwid 1 (the students map
is empty).  The claim predicts a count of 0 for (9, CS101) — the number of
grade records naming a known student and this instructor and course — yet
the phase leaves instructor 9 with a count of 1 for CS101, because the
student-side and instructor-side `if` statements at lines 63–71 are
independent. -/
theorem get_grades_count_cex :
    alookup (Repository.get_grades [] [("9", Instructor.mk "9" "Ann" "CS" [])]
        [["1", "CS101", "A", "9"]]).2.1 "9" =
      some (Instructor.mk "9" "Ann" "CS" [("CS101", 1)]) ∧
    List.countP (fun r => decide ((alookup ([] : List (String × Student)) (fld r 0)).isSome
        ∧ fld r 3 = "9" ∧ fld r 1 = "CS101")) [["1", "CS101", "A", "9"]] = 0 ∧
    ccount (Instructor.mk "9" "Ann" "CS" [("CS101", 1)]) "CS101" ≠ 0 := by
  refine ⟨rfl, rfl, ?_⟩
  decide

/-- Witness for the amended C1 at the same concrete input: starting from a
zero counter, the phase reports count 1 for (9, CS101) and total 1, the
number of records naming instructor 9 — the unknown student notwithstanding. -/
theorem get_grades_instructor_counts_witness :
    ((alookup (Repository.get_grades [] [("9", Instructor.mk "9" "Ann" "CS" [])]
        [["1", "CS101", "A", "9"]]).2.1 "9").map fun J => ccount J "CS101") = some 1 ∧
    ((alookup (Repository.get_grades [] [("9", Instructor.mk "9" "Ann" "CS" [])]
        [["1", "CS101", "A", "9"]]).2.1 "9").map fun J => ctotal J.courses) = some 1 := by
  have h := get_grades_instructor_counts [["1", "CS101", "A", "9"]] []
    [("9", Instructor.mk "9" "Ann" "CS" [])] "9" "CS101"
    (Instructor.mk "9" "Ann" "CS" []) rfl
  exact ⟨h.1.trans (by decide), h.2.trans (by decide)⟩

/-!
## Claim C3: structural load errors abort all reporting
-/

/-- Helper: whatever happens in later phases, the majors committed by the
majors phase stay resident in the repository state. -/
theorem load_majors_resident (fs : FS) :
    (Repository.load fs).1.majors =
      (Repository.get_majors [] (file_reader fs.majorsFile "majors.txt" 3 true).1).1 := by
  unfold Repository.load
  dsimp only
  split
  · rfl
  · split
    · rfl
    · split
      · rfl
      · rfl

/-- C3: if any load phase raises (`FileNotFoundError` for a missing file, or
a `ValueError` for a malformed record or an invalid course flag), the
constructor catches it at its single top-level handler: report generation is
skipped entirely — none of the four views is produced — while the state
committed by already-completed phases (in particular the majors map) remains
resident in memory. -/
theorem Repository_init_aborts (fs : FS) (tables : Bool) (e : PyError)
    (h : (Repository.load fs).2 = some e) :
    (Repository.init fs tables).2 = false ∧
    Repository.init fs tables = ((Repository.load fs).1, false) ∧
    (Repository.init fs tables).1.majors =
      (Repository.get_majors [] (file_reader fs.majorsFile "majors.txt" 3 true).1).1 := by
  have hinit : Repository.init fs tables = ((Repository.load fs).1, false) := by
    unfold Repository.init
    dsimp only
    rw [h]
  refine ⟨by rw [hinit], hinit, ?_⟩
  rw [hinit]
  exact load_majors_resident fs

/-- Witness for C3: a good majors file (header plus one record) with a
missing students file.  The load aborts with `FileNotFoundError`, no reports
run, and major CS with its required course is still resident. -/
theorem Repository_init_aborts_witness :
    Repository.init
        (FS.mk (some [["Major", "Flag", "Course"], ["CS", "R", "CS101"]]) none none none)
        true =
      (RepoState.mk [("CS", Major.mk "CS" ["CS101"] [])] [] [], false) := by
  have h := Repository_init_aborts
    (FS.mk (some [["Major", "Flag", "Course"], ["CS", "R", "CS101"]]) none none none)
    true (PyError.fileNotFound "File is not present on the provided path") rfl
  exact h.2.1.trans (by decide)
